import Mathlib

/-
Verification of the AI insight-generation pipeline of a personal-finance
web application (transaction formatting, model-response parsing and
validation, insight assembly and sorting, retry policy, cache policy).

Conventions of the shallow embedding:
- JavaScript numbers are modelled as rationals, timestamps as integers
  counting milliseconds since the Unix epoch.
- JavaScript strings are modelled by String, except in the response
  parser where lists of characters make the fence-stripping reasoning
  tractable.
- Asynchronous operations whose results come from the network (the
  language-model calls) are modelled as explicit oracle parameters: the
  embedded functions receive the values those calls would produce.
- Fallible code returns Except.
-/

set_option autoImplicit false

namespace FinTrack

/-! ## Data model -/

/-- Transaction record (fields of the Prisma model used by the pipeline).
Plaid sign convention: positive amount = expense, negative = income.
The date and createdAt fields are epoch milliseconds. -/
structure Transaction where
  amount : ℚ
  date : Int
  category : Option String
  name : String
  createdAt : Int
  deriving DecidableEq, Repr

/-- Insight category, the six enumerated values of AIInsight.category. -/
inductive InsightCategory where
  | spending | budget | savings | income | general | costReduction
  deriving DecidableEq, Repr

/-- Insight priority, the three enumerated values. -/
inductive InsightPriority where
  | high | medium | low
  deriving DecidableEq, Repr

/-- AIInsight record from src/lib/ai/client.ts. -/
structure AIInsight where
  title : String
  description : String
  category : InsightCategory
  priority : InsightPriority
  potentialSavings : Option ℚ
  confidence : ℚ
  deriving DecidableEq, Repr

/-- AIBudgetRecommendation record from src/lib/ai/client.ts. -/
structure AIBudgetRecommendation where
  category : String
  suggestedAmount : ℚ
  currentAverage : ℚ
  reasoning : String
  priority : InsightPriority
  deriving DecidableEq, Repr

/-- Difficulty values of AISavingsOpportunity. -/
inductive Difficulty where
  | easy | medium | hard
  deriving DecidableEq, Repr

/-- AISavingsOpportunity record from src/lib/ai/client.ts. -/
structure AISavingsOpportunity where
  title : String
  description : String
  potentialMonthlySavings : ℚ
  potentialYearlySavings : ℚ
  difficulty : Difficulty
  category : String
  deriving DecidableEq, Repr

/-! ## Insight assembly and sorting (generateAllInsights) -/

/-- Numeric rank of a priority, the priorityOrder table of the sort
comparator in generateAllInsights. -/
def priorityOrder : InsightPriority → Nat
  | .high => 3
  | .medium => 2
  | .low => 1

/-- Potential savings of an insight with the JavaScript default:
b.potentialSavings or 0 when absent. -/
def savOf (a : AIInsight) : ℚ := a.potentialSavings.getD 0

/-- The ordering used by the sort in generateAllInsights, as the
before-or-tied relation of the comparator: a may stay before b when
either a has strictly higher priority rank, or the ranks are equal and
a.potentialSavings (defaulted to 0) is at least b's. -/
def insLE (a b : AIInsight) : Bool :=
  if priorityOrder a.priority ≠ priorityOrder b.priority then
    priorityOrder b.priority < priorityOrder a.priority
  else
    savOf b ≤ savOf a

/-- The stable sort applied to the merged insight list in
generateAllInsights (JavaScript Array.prototype.sort is stable). -/
def sortInsights (l : List AIInsight) : List AIInsight :=
  l.mergeSort insLE

/-- Mapping of a budget recommendation to the common insight shape,
from generateAllInsights. -/
def budgetRecToInsight (rec : AIBudgetRecommendation) : AIInsight :=
  { title := "Budget: " ++ rec.category
    description := rec.reasoning
    category := .budget
    priority := rec.priority
    potentialSavings := some (rec.currentAverage - rec.suggestedAmount)
    confidence := 0.8 }

/-- Mapping of a savings opportunity to the common insight shape,
from generateAllInsights. -/
def savingsOppToInsight (opp : AISavingsOpportunity) : AIInsight :=
  { title := opp.title
    description := opp.description
    category := .savings
    priority :=
      if 50 < opp.potentialMonthlySavings then .high
      else if 20 < opp.potentialMonthlySavings then .medium
      else .low
    potentialSavings := some opp.potentialMonthlySavings
    confidence := 0.85 }

/-- Merge-and-sort step of generateAllInsights. The three lists are the
results the three concurrent model flows produced (oracle inputs, since
the flows themselves are network calls); the function returns the
allInsights list. With an empty transaction list the source returns
empty results before any model call. -/
def generateAllInsights (transactions : List Transaction)
    (spendingInsights : List AIInsight)
    (budgetRecommendations : List AIBudgetRecommendation)
    (savingsOpportunities : List AISavingsOpportunity) : List AIInsight :=
  if transactions.isEmpty then []
  else
    sortInsights
      (spendingInsights
        ++ budgetRecommendations.map budgetRecToInsight
        ++ savingsOpportunities.map savingsOppToInsight)

/-! ## Cache policy (generateInsightsWithCaching) -/

/-- Result shape of generateInsightsWithCaching. -/
structure CacheResult where
  insights : List AIInsight
  fromCache : Bool
  generatedAt : Int
  deriving DecidableEq, Repr

/-- Cache decision function from generateInsightsWithCaching.
Optional arguments model the JavaScript optional parameters
(none = undefined); an empty existing list is a defined, truthy array.
The three oracle lists stand for the model-call results consumed by
generateAllInsights on the regeneration path. -/
def generateInsightsWithCaching (now : Int) (transactions : List Transaction)
    (spendingInsights : List AIInsight)
    (budgetRecommendations : List AIBudgetRecommendation)
    (savingsOpportunities : List AISavingsOpportunity)
    (existingInsights : Option (List AIInsight))
    (lastGenerated : Option Int) : CacheResult :=
  let twentyFourHoursAgo := now - 24 * 60 * 60 * 1000
  match existingInsights, lastGenerated with
  | some ins, some lg =>
    if 0 < ins.length ∧ twentyFourHoursAgo < lg then
      { insights := ins, fromCache := true, generatedAt := lg }
    else if (transactions.filter (fun t => lg < t.createdAt)).length < 10 then
      { insights := ins, fromCache := true, generatedAt := lg }
    else
      { insights := generateAllInsights transactions spendingInsights
          budgetRecommendations savingsOpportunities
        fromCache := false, generatedAt := now }
  | _, _ =>
    { insights := generateAllInsights transactions spendingInsights
        budgetRecommendations savingsOpportunities
      fromCache := false, generatedAt := now }

/-! ## Retry wrapper (retryGroqCall) -/

/-- Retry configuration from AI_CONFIG in src/lib/ai/client.ts. -/
def aiConfigRetries : Nat := 3

/-- Base delay in milliseconds from AI_CONFIG.retryDelay. -/
def aiConfigRetryDelay : Nat := 1000

/-- Observable trace of one run of the retry wrapper: the final result,
how many times the operation was invoked, and the backoff delays slept
between consecutive invocations. -/
structure RetryTrace (E T : Type) where
  result : Except E T
  calls : Nat
  delays : List Nat

/-- Loop body of retryGroqCall. The operation is modelled as a function
from the attempt index to the outcome of that invocation; remaining is
maxRetries minus the current attempt index. On failure at the final
attempt the last error is re-raised; otherwise the wrapper sleeps
retryDelay times 2 to the attempt index and retries. -/
def retryFrom {E T : Type} (fn : Nat → Except E T) :
    Nat → Nat → RetryTrace E T
  | attempt, remaining =>
    match fn attempt with
    | .ok v => { result := .ok v, calls := 1, delays := [] }
    | .error e =>
      match remaining with
      | 0 => { result := .error e, calls := 1, delays := [] }
      | r + 1 =>
        let rest := retryFrom fn (attempt + 1) r
        { result := rest.result
          calls := rest.calls + 1
          delays := (aiConfigRetryDelay * 2 ^ attempt) :: rest.delays }

/-- retryGroqCall from src/lib/ai/client.ts: attempts run from 0 to
maxRetries inclusive. -/
def retryGroqCall {E T : Type} (fn : Nat → Except E T)
    (maxRetries : Nat) : RetryTrace E T :=
  retryFrom fn 0 maxRetries

/-! ## External data formatter (formatTransactionsForAI) -/

/-- Projection of a transaction kept in the prompt payload. The date is
rendered as the calendar-day part of the ISO timestamp. -/
structure FormattedTx where
  amount : ℚ
  category : String
  date : String
  name : String
  deriving DecidableEq, Repr

/-- Civil calendar date (year, month, day) of a day index counted from
1970-01-01, the standard era-based conversion used by ISO date
rendering. -/
def civilFromDays (z0 : Int) : Int × Int × Int :=
  let z := z0 + 719468
  let era := Int.fdiv z 146097
  let doe := z - era * 146097
  let yoe := Int.fdiv (doe - Int.fdiv doe 1461 + Int.fdiv doe 36524 - Int.fdiv doe 146096) 365
  let y := yoe + era * 400
  let doy := doe - (365 * yoe + Int.fdiv yoe 4 - Int.fdiv yoe 100)
  let mp := Int.fdiv (5 * doy + 2) 153
  let d := doy - Int.fdiv (153 * mp + 2) 5 + 1
  let m := mp + (if mp < 10 then 3 else -9)
  (y + (if m ≤ 2 then 1 else 0), m, d)

/-- Zero-pad a numeral to two digits. -/
def pad2 (n : Int) : String :=
  if n < 10 then "0" ++ toString n else toString n

/-- Zero-pad a numeral to four digits. -/
def pad4 (n : Int) : String :=
  if n < 10 then "000" ++ toString n
  else if n < 100 then "00" ++ toString n
  else if n < 1000 then "0" ++ toString n
  else toString n

/-- Calendar-day string YYYY-MM-DD of an epoch-millisecond timestamp,
the value of date.toISOString().split(T)[0]. -/
def isoDayString (ms : Int) : String :=
  match civilFromDays (Int.fdiv ms 86400000) with
  | (y, m, d) => pad4 y ++ "-" ++ pad2 m ++ "-" ++ pad2 d

/-- Thirty days in milliseconds; the source computes the cutoff with
calendar arithmetic (setDate minus 30), modelled as a fixed offset. -/
def thirtyDaysMs : Int := 30 * 86400000

/-- Qualification predicate of formatTransactionsForAI: expenses
(positive amount) dated on or after the 30-day cutoff. -/
def txQualifies (now : Int) (t : Transaction) : Bool :=
  0 < t.amount ∧ now - thirtyDaysMs ≤ t.date

/-- Date-descending comparison used by the sort in
formatTransactionsForAI. -/
def dateDescLE (a b : Transaction) : Bool :=
  b.date ≤ a.date

/-- Projection applied to each kept transaction. -/
def projectTx (t : Transaction) : FormattedTx :=
  { amount := t.amount
    category := t.category.getD "uncategorized"
    date := isoDayString t.date
    name := t.name }

/-- formatTransactionsForAI from src/lib/ai/utils.ts: filter to
expenses of the trailing 30 days, sort descending by date (stable),
keep the 50 most recent, project each record. The source serializes
the resulting list with JSON.stringify; the embedding exposes the list
itself. -/
def formatTransactionsForAI (now : Int) (transactions : List Transaction) :
    List FormattedTx :=
  ((((transactions.filter (txQualifies now)).mergeSort dateDescLE).take 50).map
    projectTx)

/-! ## Dynamic JSON values (for the validator and the coercion step) -/

/-- Dynamic JavaScript value as produced by JSON.parse, extended with
undefined for the result of reading an absent property. -/
inductive JSValue where
  | undefined
  | null
  | bool (b : Bool)
  | num (q : ℚ)
  | str (s : String)
  | arr (elems : List JSValue)
  | obj (fields : List (String × JSValue))

/-- First binding of a key in an object body (JSON.parse output holds
at most one binding per key). Absent keys read as undefined. -/
def lookupField : List (String × JSValue) → String → JSValue
  | [], _ => .undefined
  | (k2, v) :: rest, k => if k2 = k then v else lookupField rest k

/-- Property read: undefined on every non-object receiver. -/
def JSValue.field : JSValue → String → JSValue
  | .obj fs, k => lookupField fs k
  | _, _ => .undefined

/-- JavaScript truthiness of a value. -/
def truthy : JSValue → Bool
  | .undefined => false
  | .null => false
  | .bool b => b
  | .num q => !(q == 0)
  | .str s => !(s == "")
  | .arr _ => true
  | .obj _ => true

/-- The typeof x triple-equals string test. -/
def typeofIsString : JSValue → Bool
  | .str _ => true
  | _ => false

/-- Array.prototype.includes on a string list, false for a non-string
probe. -/
def includesStr (l : List String) : JSValue → Bool
  | .str s => l.contains s
  | _ => false

/-- The six category values accepted by validateInsight. -/
def insightCategories : List String :=
  ["spending", "budget", "savings", "income", "general", "cost reduction"]

/-- The three priority values accepted by validateInsight. -/
def insightPriorities : List String :=
  ["high", "medium", "low"]

/-- validateInsight from src/lib/ai/utils.ts: the element is truthy,
title, description, category and priority are strings, and category and
priority belong to the enumerated value lists. No check constrains any
string to be non-empty, and no check touches the confidence field. -/
def validateInsight (v : JSValue) : Bool :=
  truthy v &&
  typeofIsString (v.field "title") &&
  typeofIsString (v.field "description") &&
  typeofIsString (v.field "category") &&
  typeofIsString (v.field "priority") &&
  includesStr insightCategories (v.field "category") &&
  includesStr insightPriorities (v.field "priority")

/-- Replace the binding of a key in an object body, or append it. -/
def setFieldList : List (String × JSValue) → String → JSValue →
    List (String × JSValue)
  | [], k, x => [(k, x)]
  | (k2, v) :: rest, k, x =>
    if k2 = k then (k, x) :: rest else (k2, v) :: setFieldList rest k x

/-- Object-spread update: the literal with insight spread first and the
named key overridden. A primitive receiver spreads to no properties, so
only the named key remains. -/
def JSValue.setField : JSValue → String → JSValue → JSValue
  | .obj fs, k, x => .obj (setFieldList fs k x)
  | _, k, x => .obj [(k, x)]

/-- The per-element map of generateSpendingAnalysis: spread the element
and re-set category and priority to their own values (the TypeScript
cast is a runtime no-op) and confidence to itself when truthy, else to
the literal 0.8. -/
def coerceInsight (v : JSValue) : JSValue :=
  (((v.setField "category" (v.field "category")).setField
      "priority" (v.field "priority")).setField
      "confidence"
      (if truthy (v.field "confidence") then v.field "confidence"
       else .num 0.8))

/-- Post-parse processing of generateSpendingAnalysis: reject the
response unless the insights key holds an array (a falsy or non-array
value throws), then keep the elements passing validateInsight and
apply the coercion map to each. -/
def processSpendingResponse (parsed : JSValue) :
    Except String (List JSValue) :=
  match parsed.field "insights" with
  | .arr xs => .ok ((xs.filter validateInsight).map coerceInsight)
  | _ => .error "Invalid response format from AI"

/-! ## Response parser (parseAIResponse) -/

/-- Whitespace recognized by String.prototype.trim (ASCII part). -/
def jsWs (c : Char) : Bool :=
  c == ' ' || c == '\t' || c == '\n' || c == '\r' || c == '\x0b' || c == '\x0c'

/-- Left trim on a character list. -/
def trimLeftCs (s : List Char) : List Char :=
  s.dropWhile jsWs

/-- Right trim on a character list. -/
def trimRightCs (s : List Char) : List Char :=
  (s.reverse.dropWhile jsWs).reverse

/-- String.prototype.trim on a character list. -/
def trimCs (s : List Char) : List Char :=
  trimRightCs (trimLeftCs s)

/-- Drop the last n characters, the end of slice with a negative stop
index. -/
def dropRightCs (s : List Char) (n : Nat) : List Char :=
  s.take (s.length - n)

/-- Fence stripping of parseAIResponse from src/lib/ai/utils.ts: trim,
remove one leading json-tagged or bare triple-backtick fence together
with the trailing fence when both are present, trim again. -/
def cleanResponse (s : List Char) : List Char :=
  let t := trimCs s
  if "```json".data.isPrefixOf t && "```".data.isSuffixOf t then
    trimCs (dropRightCs (t.drop 7) 3)
  else if "```".data.isPrefixOf t && "```".data.isSuffixOf t then
    trimCs (dropRightCs (t.drop 3) 3)
  else t

/-- parseAIResponse: clean the text, then hand it to the JSON parser
(jsonParse stands for the JSON.parse runtime primitive, which is not
repository code); a parse failure is re-thrown as a descriptive error,
never swallowed. -/
def parseAIResponse {J : Type} (jsonParse : List Char → Option J)
    (s : List Char) : Except String J :=
  match jsonParse (cleanResponse s) with
  | some v => .ok v
  | none => .error "Failed to parse AI response"

/-- A json-tagged markdown fence wrapped around a text. -/
def fenceJson (j : List Char) : List Char :=
  "```json\n".data ++ j ++ "\n```".data

/-- A bare markdown fence wrapped around a text. -/
def fenceBare (j : List Char) : List Char :=
  "```\n".data ++ j ++ "\n```".data

/-! ## Concrete values used to instantiate the theorems -/

/-- A concrete insight. -/
def insZero : AIInsight :=
  { title := "t", description := "d", category := .general,
    priority := .low, potentialSavings := none, confidence := 1 }

/-- A concrete transaction with a given creation timestamp. -/
def mkTx (created : Int) : Transaction :=
  { amount := 5, date := 0, category := none, name := "x", createdAt := created }

/-! ## Cache policy claims -/

/-- C1 (amended): with non-empty existing insights, the cache decision
behaves as follows on the three test inputs of the spec. With
lastGenerated = now minus 23 hours and 0 transactions newer than
lastGenerated it returns fromCache = true. With lastGenerated = now
minus 25 hours it returns fromCache = false exactly when at least 10
transactions are newer than lastGenerated, and fromCache = true when
fewer than 10 are newer (the spec claimed false regardless of the
count). With lastGenerated = now minus 1 hour and 15 transactions newer
than lastGenerated it returns fromCache = true, because the 24-hour
recency clause fires first (the spec claimed false). -/
theorem cacheClaimC1 (now : Int) (txs : List Transaction)
    (sp : List AIInsight) (recs : List AIBudgetRecommendation)
    (opps : List AISavingsOpportunity) (existing : List AIInsight)
    (hne : existing ≠ []) :
    ((txs.filter (fun t => now - 23 * 3600000 < t.createdAt)).length = 0 →
      (generateInsightsWithCaching now txs sp recs opps (some existing)
        (some (now - 23 * 3600000))).fromCache = true)
    ∧ (10 ≤ (txs.filter (fun t => now - 25 * 3600000 < t.createdAt)).length →
      (generateInsightsWithCaching now txs sp recs opps (some existing)
        (some (now - 25 * 3600000))).fromCache = false)
    ∧ ((txs.filter (fun t => now - 25 * 3600000 < t.createdAt)).length < 10 →
      (generateInsightsWithCaching now txs sp recs opps (some existing)
        (some (now - 25 * 3600000))).fromCache = true)
    ∧ ((txs.filter (fun t => now - 3600000 < t.createdAt)).length = 15 →
      (generateInsightsWithCaching now txs sp recs opps (some existing)
        (some (now - 3600000))).fromCache = true) := by
  have hlen : 0 < existing.length := List.length_pos.mpr hne
  refine ⟨fun _ => ?_, fun h => ?_, fun h => ?_, fun _ => ?_⟩
  · simp only [generateInsightsWithCaching]
    rw [if_pos ⟨hlen, by omega⟩]
  · simp only [generateInsightsWithCaching]
    rw [if_neg (by omega), if_neg (by omega)]
  · simp only [generateInsightsWithCaching]
    rw [if_neg (by omega), if_pos h]
  · simp only [generateInsightsWithCaching]
    rw [if_pos ⟨hlen, by omega⟩]

/-- C1 witness: the amended claim instantiated at concrete inputs
(now = 25 hours past the epoch). -/
theorem cacheClaimC1_witness :
    (generateInsightsWithCaching 90000000 [] [] [] [] (some [insZero])
      (some (90000000 - 23 * 3600000))).fromCache = true
    ∧ (generateInsightsWithCaching 90000000 (List.replicate 15 (mkTx 90000000))
        [] [] [] (some [insZero]) (some (90000000 - 25 * 3600000))).fromCache = false
    ∧ (generateInsightsWithCaching 90000000 [] [] [] [] (some [insZero])
        (some (90000000 - 25 * 3600000))).fromCache = true
    ∧ (generateInsightsWithCaching 90000000 (List.replicate 15 (mkTx 90000000))
        [] [] [] (some [insZero]) (some (90000000 - 3600000))).fromCache = true :=
  ⟨(cacheClaimC1 90000000 [] [] [] [] [insZero] (by decide)).1 (by decide),
   (cacheClaimC1 90000000 (List.replicate 15 (mkTx 90000000)) [] [] []
      [insZero] (by decide)).2.1 (by decide),
   (cacheClaimC1 90000000 [] [] [] [] [insZero] (by decide)).2.2.1 (by decide),
   (cacheClaimC1 90000000 (List.replicate 15 (mkTx 90000000)) [] [] []
      [insZero] (by decide)).2.2.2 (by decide)⟩

/-- C1 counterexample: the claim as stated is false on the code. With
non-empty existing insights, lastGenerated 25 hours old and 0 newer
transactions the function returns fromCache = true (the claim demands
false regardless of the count), and with lastGenerated 1 hour old and
15 newer transactions it also returns fromCache = true (the claim
demands false). -/
theorem cacheClaimC1_counterexample :
    (generateInsightsWithCaching 90000000 [] [] [] [] (some [insZero])
      (some (90000000 - 25 * 3600000))).fromCache = true
    ∧ ((List.replicate 15 (mkTx 90000000)).filter
        (fun t => (90000000 - 3600000 : Int) < t.createdAt)).length = 15
    ∧ (generateInsightsWithCaching 90000000 (List.replicate 15 (mkTx 90000000))
        [] [] [] (some [insZero]) (some (90000000 - 3600000))).fromCache = true := by
  refine ⟨rfl, by decide, rfl⟩

/-- C2 (confirmed): with non-empty existing insights and a defined
lastGenerated, the result is the cached list unmodified with
fromCache = true and generatedAt = lastGenerated exactly when
lastGenerated is within the last 24 hours or fewer than 10 transactions
have a creation timestamp after lastGenerated; otherwise the result is
the freshly generated set with fromCache = false and generatedAt = now. -/
theorem cacheClaimC2 (now lg : Int) (txs : List Transaction)
    (sp : List AIInsight) (recs : List AIBudgetRecommendation)
    (opps : List AISavingsOpportunity) (existing : List AIInsight)
    (hne : existing ≠ []) :
    ((generateInsightsWithCaching now txs sp recs opps (some existing)
        (some lg)).fromCache = true
      ↔ (now - 24 * 60 * 60 * 1000 < lg
          ∨ (txs.filter (fun t => lg < t.createdAt)).length < 10))
    ∧ ((generateInsightsWithCaching now txs sp recs opps (some existing)
        (some lg)).fromCache = true →
        generateInsightsWithCaching now txs sp recs opps (some existing)
          (some lg) =
          { insights := existing, fromCache := true, generatedAt := lg })
    ∧ ((generateInsightsWithCaching now txs sp recs opps (some existing)
        (some lg)).fromCache = false →
        generateInsightsWithCaching now txs sp recs opps (some existing)
          (some lg) =
          { insights := generateAllInsights txs sp recs opps
            fromCache := false, generatedAt := now }) := by
  have hlen : 0 < existing.length := List.length_pos.mpr hne
  simp only [generateInsightsWithCaching]
  split_ifs with h1 h2
  · exact ⟨by simp; omega, fun _ => rfl, by simp⟩
  · exact ⟨by simp [h2], fun _ => rfl, by simp⟩
  · refine ⟨?_, by simp, fun _ => rfl⟩
    simp only [not_and, not_lt] at h1 h2
    constructor
    · intro h; cases h
    · intro h
      rcases h with h | h
      · exact absurd (h1 hlen) (by omega)
      · omega

/-- C2 witness: a cached hit and a regeneration at concrete inputs. -/
theorem cacheClaimC2_witness :
    ((generateInsightsWithCaching 0 [] [] [] [] (some [insZero])
        (some (-1000))).fromCache = true
      ↔ ((0 : Int) - 24 * 60 * 60 * 1000 < -1000
          ∨ (([] : List Transaction).filter
              (fun t => (-1000 : Int) < t.createdAt)).length < 10))
    ∧ generateInsightsWithCaching 0 [] [] [] [] (some [insZero])
        (some (-1000)) =
        { insights := [insZero], fromCache := true, generatedAt := -1000 } :=
  ⟨(cacheClaimC2 0 (-1000) [] [] [] [] [insZero] (by decide)).1,
   (cacheClaimC2 0 (-1000) [] [] [] [] [insZero] (by decide)).2.1
     ((cacheClaimC2 0 (-1000) [] [] [] [] [insZero] (by decide)).1.mpr
       (Or.inl (by decide)))⟩

/-- C10 (confirmed): with existingInsights equal to the defined empty
list (a truthy JavaScript array), a defined lastGenerated, and fewer
than 10 transactions created after lastGenerated, the function returns
the empty cached list with fromCache = true and generatedAt =
lastGenerated, performing no generation: the fewer-than-10 clause does
not require any insight to exist. -/
theorem cacheClaimC10 (now lg : Int) (txs : List Transaction)
    (sp : List AIInsight) (recs : List AIBudgetRecommendation)
    (opps : List AISavingsOpportunity)
    (h : (txs.filter (fun t => lg < t.createdAt)).length < 10) :
    generateInsightsWithCaching now txs sp recs opps (some []) (some lg) =
      { insights := [], fromCache := true, generatedAt := lg } := by
  simp only [generateInsightsWithCaching]
  rw [if_neg (by simp), if_pos h]

/-- C10 witness: concrete instantiation with no transactions. -/
theorem cacheClaimC10_witness :
    (([] : List Transaction).filter
        (fun t => (5 : Int) < t.createdAt)).length < 10
    ∧ generateInsightsWithCaching 99 [] [insZero] [] [] (some []) (some 5) =
        { insights := [], fromCache := true, generatedAt := 5 } :=
  ⟨by decide, cacheClaimC10 99 5 [] [insZero] [] [] (by decide)⟩

/-! ## Retry wrapper claim -/

/-- Trace of the retry loop on an always-failing operation, for any
starting attempt index. -/
theorem retryFrom_all_error {E T : Type} (fn : Nat → Except E T)
    (errs : Nat → E) (h : ∀ k, fn k = .error (errs k)) :
    ∀ (r a : Nat), retryFrom fn a r =
      { result := .error (errs (a + r)), calls := r + 1,
        delays := (List.range r).map
          (fun i => aiConfigRetryDelay * 2 ^ (a + i)) } := by
  intro r
  induction r with
  | zero => intro a; simp [retryFrom, h a]
  | succ r ih =>
    intro a
    have hidx : a + 1 + r = a + (r + 1) := by omega
    simp [retryFrom, h a, ih (a + 1), hidx, List.range_succ_eq_map,
      List.map_map, Function.comp, Nat.add_assoc, Nat.add_comm,
      Nat.add_left_comm]

/-- C4 (confirmed): an operation failing on its first two invocations
and succeeding on the third returns the success value after exactly 3
invocations under maxRetries = 3 (sleeping 1000 then 2000 ms in
between); an always-failing operation is invoked exactly maxRetries + 1
times, the error of the last invocation is re-raised unchanged, and the
delay slept between attempt i and attempt i + 1 is the 1000 ms base
delay times 2 to the i. -/
theorem retryClaimC4 {E T : Type} (fn : Nat → Except E T)
    (errs : Nat → E) (v : T) (m : Nat) :
    (∀ e0 e1, fn 0 = .error e0 → fn 1 = .error e1 → fn 2 = .ok v →
      retryGroqCall fn 3 =
        { result := .ok v, calls := 3, delays := [1000, 2000] })
    ∧ ((∀ k, fn k = .error (errs k)) →
      retryGroqCall fn m =
        { result := .error (errs m), calls := m + 1,
          delays := (List.range m).map (fun i => 1000 * 2 ^ i) }) := by
  constructor
  · intro e0 e1 h0 h1 h2
    simp [retryGroqCall, retryFrom, h0, h1, h2, aiConfigRetryDelay]
  · intro h
    rw [retryGroqCall, retryFrom_all_error fn errs h m 0]
    simp [aiConfigRetryDelay]

/-- C4 witness: the claim instantiated at an operation failing twice
then succeeding, and at an always-failing operation, with maxRetries
equal to the configured 3. -/
theorem retryClaimC4_witness :
    retryGroqCall (fun k => if k < 2 then Except.error "boom"
      else Except.ok (42 : Nat)) 3 =
      { result := .ok 42, calls := 3, delays := [1000, 2000] }
    ∧ retryGroqCall (fun _ => (Except.error "down" : Except String Nat)) 3 =
      { result := .error "down", calls := 4, delays := [1000, 2000, 4000] } :=
  ⟨(retryClaimC4 (fun k => if k < 2 then Except.error "boom"
      else Except.ok (42 : Nat)) (fun _ => "boom") 42 3).1
      "boom" "boom" rfl rfl rfl,
   (retryClaimC4 (fun _ => (Except.error "down" : Except String Nat))
      (fun _ => "down") 42 3).2 (fun _ => rfl)⟩

/-! ## External data formatter claim -/

/-- The date-descending comparison is transitive. -/
theorem dateDescLE_trans : ∀ (a b c : Transaction),
    dateDescLE a b → dateDescLE b c → dateDescLE a c := by
  intro a b c
  simp only [dateDescLE, decide_eq_true_eq]
  omega

/-- The date-descending comparison is total. -/
theorem dateDescLE_total : ∀ (a b : Transaction),
    dateDescLE a b || dateDescLE b a := by
  intro a b
  simp only [dateDescLE, Bool.or_eq_true, decide_eq_true_eq]
  omega

/-- A concrete qualifying transaction dated at the epoch. -/
def txP : Transaction :=
  { amount := 1, date := 0, category := none, name := "p", createdAt := 0 }

/-- C5 (confirmed): the formatter output is the projection of the first
50 entries of the date-descending stable sort of the qualifying
transactions (positive amount, within the trailing 30 days); every
output row has positive amount, every kept transaction is within the
window, more than 50 qualifying transactions yield exactly 50 rows,
the kept list is sorted descending by date and dominates every dropped
qualifying transaction, and the empty input yields the empty
projection. -/
theorem formatClaimC5 (now : Int) (ts : List Transaction) :
    (formatTransactionsForAI now ts =
      ((((ts.filter (txQualifies now)).mergeSort dateDescLE).take 50).map
        projectTx))
    ∧ (∀ r ∈ formatTransactionsForAI now ts, 0 < r.amount)
    ∧ (∀ t ∈ ((ts.filter (txQualifies now)).mergeSort dateDescLE).take 50,
        0 < t.amount ∧ now - thirtyDaysMs ≤ t.date)
    ∧ (50 < (ts.filter (txQualifies now)).length →
        (formatTransactionsForAI now ts).length = 50)
    ∧ ((((ts.filter (txQualifies now)).mergeSort dateDescLE).take 50).Pairwise
        (fun a b => b.date ≤ a.date))
    ∧ (∀ a ∈ ((ts.filter (txQualifies now)).mergeSort dateDescLE).take 50,
        ∀ b ∈ ((ts.filter (txQualifies now)).mergeSort dateDescLE).drop 50,
          b.date ≤ a.date)
    ∧ formatTransactionsForAI now [] = [] := by
  have hqual : ∀ t ∈ ((ts.filter (txQualifies now)).mergeSort dateDescLE).take 50,
      0 < t.amount ∧ now - thirtyDaysMs ≤ t.date := by
    intro t ht
    have hmem : t ∈ ts.filter (txQualifies now) :=
      List.mem_mergeSort.mp (List.mem_of_mem_take ht)
    have := (List.mem_filter.mp hmem).2
    simpa [txQualifies] using this
  have hsorted : (((ts.filter (txQualifies now)).mergeSort dateDescLE)).Pairwise
      (fun a b => b.date ≤ a.date) := by
    refine (List.sorted_mergeSort dateDescLE_trans dateDescLE_total
      (ts.filter (txQualifies now))).imp ?_
    intro a b h
    simpa [dateDescLE] using h
  refine ⟨rfl, ?_, hqual, ?_, ?_, ?_, by simp [formatTransactionsForAI]⟩
  · intro r hr
    rw [formatTransactionsForAI, List.mem_map] at hr
    obtain ⟨t, ht, rfl⟩ := hr
    exact (hqual t ht).1
  · intro h
    simp only [formatTransactionsForAI, List.length_map, List.length_take,
      List.length_mergeSort]
    omega
  · exact hsorted.sublist (List.take_sublist 50 _)
  · have h2 := hsorted
    rw [← List.take_append_drop 50
      ((ts.filter (txQualifies now)).mergeSort dateDescLE)] at h2
    exact fun a ha b hb => (List.pairwise_append.mp h2).2.2 a ha b hb

/-- C5 witness: 51 qualifying transactions yield exactly 50 rows, and a
singleton input yields its projection with positive amount. -/
theorem formatClaimC5_witness :
    50 < ((List.replicate 51 txP).filter (txQualifies 0)).length
    ∧ (formatTransactionsForAI 0 (List.replicate 51 txP)).length = 50
    ∧ 0 < (projectTx txP).amount :=
  ⟨by decide,
   (formatClaimC5 0 (List.replicate 51 txP)).2.2.2.1 (by decide),
   (formatClaimC5 0 [txP]).2.1 (projectTx txP)
     (by norm_num [formatTransactionsForAI, txQualifies, txP, thirtyDaysMs])⟩

/-! ## Insight assembly claims -/

set_option linter.unusedTactic false in
/-- The insight comparison is transitive. -/
theorem insLE_trans : ∀ (a b c : AIInsight),
    insLE a b → insLE b c → insLE a c := by
  intro a b c hab hbc
  simp only [insLE] at hab hbc ⊢
  split_ifs at hab hbc ⊢ with h1 h2 h3
  all_goals simp only [decide_eq_true_eq] at hab hbc ⊢
  all_goals
    first
      | omega
      | (exfalso; omega)
      | exact le_trans hbc hab

/-- The insight comparison is total. -/
theorem insLE_total : ∀ (a b : AIInsight), insLE a b || insLE b a := by
  intro a b
  by_cases h : priorityOrder a.priority = priorityOrder b.priority
  · simp [insLE, h]
    exact le_total _ _
  · simp [insLE, h, Ne.symm h]

/-- C7 (confirmed): the sorted merged list is pairwise ordered by
priority rank descending with potential savings descending as tiebreak;
a list already in that order is returned unchanged (hence sorting is
idempotent); and two insights equal on both keys keep their relative
generation order, as a pair sublist surviving the stable sort. -/
theorem sortClaimC7 (l : List AIInsight) (a b : AIInsight) :
    ((sortInsights l).Pairwise (fun x y =>
        priorityOrder y.priority < priorityOrder x.priority
        ∨ (priorityOrder x.priority = priorityOrder y.priority
            ∧ savOf y ≤ savOf x)))
    ∧ (l.Pairwise (fun x y => insLE x y = true) → sortInsights l = l)
    ∧ sortInsights (sortInsights l) = sortInsights l
    ∧ (priorityOrder a.priority = priorityOrder b.priority →
        savOf a = savOf b → List.Sublist [a, b] l →
        List.Sublist [a, b] (sortInsights l)) := by
  refine ⟨?_, ?_, ?_, ?_⟩
  · refine (List.sorted_mergeSort insLE_trans insLE_total l).imp ?_
    intro x y h
    simp only [insLE] at h
    split_ifs at h with hxy
    · exact Or.inl (by simpa using h)
    · exact Or.inr ⟨not_ne_iff.mp hxy, by simpa using h⟩
  · intro h
    exact List.mergeSort_of_sorted h
  · exact List.mergeSort_of_sorted
      (List.sorted_mergeSort insLE_trans insLE_total l)
  · intro h1 h2 hsub
    refine List.pair_sublist_mergeSort insLE_trans insLE_total ?_ hsub
    simp [insLE, h1, h2]

/-- C7 witness: a singleton sorted list is unchanged, and an equal-key
pair survives sorting in order. -/
theorem sortClaimC7_witness :
    ([insZero] : List AIInsight).Pairwise (fun x y => insLE x y = true)
    ∧ sortInsights [insZero] = [insZero]
    ∧ List.Sublist [insZero, insZero] (sortInsights [insZero, insZero]) :=
  ⟨by simp,
   (sortClaimC7 [insZero] insZero insZero).2.1 (by simp),
   (sortClaimC7 [insZero, insZero] insZero insZero).2.2.2 rfl rfl
     (List.Sublist.refl _)⟩

/-- Concrete budget recommendation. -/
def recW : AIBudgetRecommendation :=
  { category := "Dining", suggestedAmount := 200, currentAverage := 350,
    reasoning := "cook at home", priority := .high }

/-- Concrete savings opportunity with a given monthly savings value. -/
def mkOpp (q : ℚ) : AISavingsOpportunity :=
  { title := "o", description := "d", potentialMonthlySavings := q,
    potentialYearlySavings := 0, difficulty := .easy, category := "c" }

/-- C8 (confirmed): a budget recommendation maps to an insight with
category budget, potential savings equal to currentAverage minus
suggestedAmount, confidence fixed at 0.8 and the recommendation's own
priority; a savings opportunity maps to category savings, confidence
fixed at 0.85, potential savings equal to the monthly savings, and
priority high when the monthly savings exceed 50, medium when they
exceed 20, low otherwise. -/
theorem assembleClaimC8 (rec : AIBudgetRecommendation)
    (opp : AISavingsOpportunity) :
    ((budgetRecToInsight rec).category = .budget)
    ∧ ((budgetRecToInsight rec).potentialSavings =
        some (rec.currentAverage - rec.suggestedAmount))
    ∧ ((budgetRecToInsight rec).confidence = 0.8)
    ∧ ((budgetRecToInsight rec).priority = rec.priority)
    ∧ ((savingsOppToInsight opp).category = .savings)
    ∧ ((savingsOppToInsight opp).confidence = 0.85)
    ∧ ((savingsOppToInsight opp).potentialSavings =
        some opp.potentialMonthlySavings)
    ∧ (50 < opp.potentialMonthlySavings →
        (savingsOppToInsight opp).priority = .high)
    ∧ (opp.potentialMonthlySavings ≤ 50 → 20 < opp.potentialMonthlySavings →
        (savingsOppToInsight opp).priority = .medium)
    ∧ (opp.potentialMonthlySavings ≤ 20 →
        (savingsOppToInsight opp).priority = .low) := by
  refine ⟨rfl, rfl, rfl, rfl, rfl, rfl, rfl, ?_, ?_, ?_⟩
  · intro h
    simp [savingsOppToInsight, h]
  · intro h1 h2
    simp only [savingsOppToInsight]
    rw [if_neg (by linarith), if_pos h2]
  · intro h
    simp only [savingsOppToInsight]
    rw [if_neg (by linarith), if_neg (by linarith)]

/-- C8 witness: the mappings at concrete records, one per priority
threshold branch. -/
theorem assembleClaimC8_witness :
    (budgetRecToInsight recW).potentialSavings = some 150
    ∧ (budgetRecToInsight recW).confidence = 0.8
    ∧ (savingsOppToInsight (mkOpp 100)).priority = .high
    ∧ (savingsOppToInsight (mkOpp 30)).priority = .medium
    ∧ (savingsOppToInsight (mkOpp 10)).priority = .low :=
  ⟨by have h := (assembleClaimC8 recW (mkOpp 100)).2.1
      rw [h]; norm_num [recW],
   (assembleClaimC8 recW (mkOpp 100)).2.2.1,
   (assembleClaimC8 recW (mkOpp 100)).2.2.2.2.2.2.2.1 (by norm_num [mkOpp]),
   (assembleClaimC8 recW (mkOpp 30)).2.2.2.2.2.2.2.2.1
     (by norm_num [mkOpp]) (by norm_num [mkOpp]),
   (assembleClaimC8 recW (mkOpp 10)).2.2.2.2.2.2.2.2.2
     (by norm_num [mkOpp])⟩

/-! ## Validator and confidence-coercion claims -/

/-- The typeof string test holds exactly on string values. -/
theorem typeofIsString_iff (x : JSValue) :
    typeofIsString x = true ↔ ∃ s, x = .str s := by
  cases x <;> simp [typeofIsString]

/-- The includes test holds exactly on strings belonging to the list. -/
theorem includesStr_iff (L : List String) (x : JSValue) :
    includesStr L x = true ↔ ∃ s, x = .str s ∧ s ∈ L := by
  cases x <;> simp [includesStr]

/-- A valid spending-analysis element with empty title. -/
def exEmptyTitle : JSValue :=
  .obj [("title", .str ""), ("description", .str "d"),
        ("category", .str "spending"), ("priority", .str "high")]

/-- A fully valid spending-analysis element. -/
def exValid : JSValue :=
  .obj [("title", .str "Cut dining"), ("description", .str "spend less"),
        ("category", .str "spending"), ("priority", .str "high")]

/-- C3 (amended): an element is kept exactly when its title and
description are strings (possibly empty: the source checks only typeof,
not non-emptiness), its category is a string among the six enumerated
values and its priority a string among the three; failing elements are
silently dropped by the filter, a response whose elements all pass has
none dropped, and the spending-analysis flow returns exactly the
filtered, coerced elements of the insights array. -/
theorem validateClaimC3 (v : JSValue) (xs : List JSValue) :
    (validateInsight v = true ↔
      ((∃ t, v.field "title" = .str t)
        ∧ (∃ d, v.field "description" = .str d)
        ∧ (∃ c, v.field "category" = .str c ∧ c ∈ insightCategories)
        ∧ (∃ p, v.field "priority" = .str p ∧ p ∈ insightPriorities)))
    ∧ ((∀ e ∈ xs, validateInsight e = true) → xs.filter validateInsight = xs)
    ∧ (∀ ys, v.field "insights" = .arr ys →
        processSpendingResponse v =
          .ok ((ys.filter validateInsight).map coerceInsight)) := by
  refine ⟨⟨?_, ?_⟩, ?_, ?_⟩
  · intro h
    simp only [validateInsight, Bool.and_eq_true] at h
    obtain ⟨⟨⟨⟨⟨⟨-, h1⟩, h2⟩, -⟩, -⟩, h5⟩, h6⟩ := h
    exact ⟨(typeofIsString_iff _).mp h1, (typeofIsString_iff _).mp h2,
      (includesStr_iff _ _).mp h5, (includesStr_iff _ _).mp h6⟩
  · rintro ⟨⟨t, ht⟩, ⟨d, hd⟩, ⟨c, hc, hcm⟩, ⟨p, hp, hpm⟩⟩
    have hobj : truthy v = true := by
      cases v <;> first | rfl | simp [JSValue.field] at ht
    simp [validateInsight, hobj, ht, hd, hc, hp, typeofIsString,
      includesStr, hcm, hpm]
  · intro h
    exact List.filter_eq_self.mpr h
  · intro ys hys
    simp [processSpendingResponse, hys]

/-- C3 witness: a valid element passes, a one-element all-valid array
loses nothing through the flow. -/
theorem validateClaimC3_witness :
    validateInsight exValid = true
    ∧ [exValid].filter validateInsight = [exValid]
    ∧ processSpendingResponse (.obj [("insights", .arr [exValid])]) =
        .ok [coerceInsight exValid] :=
  ⟨by decide,
   (validateClaimC3 exValid [exValid]).2.1 (by decide),
   (validateClaimC3 (.obj [("insights", .arr [exValid])]) []).2.2
      [exValid] rfl⟩

/-- C3 counterexample: the element with an empty title and otherwise
valid fields is kept by the code, so the if-and-only-if of the claim
(which demands non-empty title and description) fails at this input. -/
theorem validateClaimC3_counterexample :
    ¬ ((validateInsight exEmptyTitle = true) ↔
       ((∃ t, exEmptyTitle.field "title" = .str t ∧ t ≠ "")
         ∧ (∃ d, exEmptyTitle.field "description" = .str d ∧ d ≠ "")
         ∧ (∃ c, exEmptyTitle.field "category" = .str c ∧ c ∈ insightCategories)
         ∧ (∃ p, exEmptyTitle.field "priority" = .str p
              ∧ p ∈ insightPriorities))) := by
  intro hiff
  obtain ⟨⟨t, ht, hne⟩, -, -, -⟩ := hiff.mp (by decide)
  have ht0 : exEmptyTitle.field "title" = .str "" := rfl
  rw [ht0] at ht
  injection ht with h
  exact hne h.symm

/-- Reading back the key just written by the object-spread update. -/
theorem field_setField : ∀ (v : JSValue) (k : String) (x : JSValue),
    (v.setField k x).field k = x := by
  intro v k x
  cases v with
  | obj fs =>
    simp only [JSValue.setField, JSValue.field]
    induction fs with
    | nil => simp [setFieldList, lookupField]
    | cons kv rest ih =>
      obtain ⟨k2, w⟩ := kv
      by_cases h : k2 = k
      · simp [setFieldList, lookupField, h]
      · simp [setFieldList, lookupField, h, ih]
  | undefined => simp [JSValue.setField, JSValue.field, lookupField]
  | null => simp [JSValue.setField, JSValue.field, lookupField]
  | bool b => simp [JSValue.setField, JSValue.field, lookupField]
  | num q => simp [JSValue.setField, JSValue.field, lookupField]
  | str s => simp [JSValue.setField, JSValue.field, lookupField]
  | arr es => simp [JSValue.setField, JSValue.field, lookupField]

/-- C9 (amended): the kept element's returned confidence is its own
confidence value whenever that value is truthy — in particular any
nonzero number — and the literal 0.8 when it is falsy: zero, absent,
null, false or the empty string. -/
theorem confidenceClaimC9 (v : JSValue) (q : ℚ) :
    ((coerceInsight v).field "confidence" =
      (if truthy (v.field "confidence") then v.field "confidence"
       else .num 0.8))
    ∧ (v.field "confidence" = .num q → q ≠ 0 →
        (coerceInsight v).field "confidence" = .num q)
    ∧ (v.field "confidence" = .num 0 →
        (coerceInsight v).field "confidence" = .num 0.8)
    ∧ (v.field "confidence" = .undefined →
        (coerceInsight v).field "confidence" = .num 0.8) := by
  have hbase : (coerceInsight v).field "confidence" =
      (if truthy (v.field "confidence") then v.field "confidence"
       else .num 0.8) := field_setField _ _ _
  refine ⟨hbase, ?_, ?_, ?_⟩
  · intro hq hq0
    rw [hbase, hq]
    simp [truthy, hq0]
  · intro hq
    rw [hbase, hq]
    simp [truthy]
  · intro hq
    rw [hbase, hq]
    simp [truthy]

/-- C9 witness: a nonzero numeric confidence is kept, a zero or absent
confidence is replaced by 0.8. -/
theorem confidenceClaimC9_witness :
    (coerceInsight (.obj [("confidence", .num (9/10))])).field "confidence"
      = .num (9/10)
    ∧ (coerceInsight (.obj [("confidence", .num 0)])).field "confidence"
      = .num 0.8
    ∧ (coerceInsight (.obj [])).field "confidence" = .num 0.8 :=
  ⟨(confidenceClaimC9 (.obj [("confidence", .num (9/10))]) (9/10)).2.1
      rfl (by norm_num),
   (confidenceClaimC9 (.obj [("confidence", .num 0)]) 0).2.2.1 rfl,
   (confidenceClaimC9 (.obj []) 0).2.2.2 rfl⟩

/-- An element with a boolean confidence that passes validation. -/
def exConfBool : JSValue :=
  .obj [("title", .str "t"), ("description", .str "d"),
        ("category", .str "spending"), ("priority", .str "high"),
        ("confidence", .bool true)]

/-- C9 counterexample: a validated element whose confidence is the
boolean true keeps that boolean in the result, which is neither the
element's numeric confidence nor 0.8, refuting the claim that every
non-nonzero-number confidence is replaced by 0.8. -/
theorem confidenceClaimC9_counterexample :
    validateInsight exConfBool = true
    ∧ (coerceInsight exConfBool).field "confidence" = .bool true
    ∧ ∀ r : ℚ, (coerceInsight exConfBool).field "confidence" ≠ .num r := by
  refine ⟨by decide, rfl, ?_⟩
  intro r h
  rw [show (coerceInsight exConfBool).field "confidence" = .bool true
    from rfl] at h
  exact JSValue.noConfusion h

/-! ## Response parser claim -/

/-- Trimming skips a leading whitespace character. -/
theorem trimLeftCs_cons_ws {c : Char} {l : List Char} (h : jsWs c = true) :
    trimLeftCs (c :: l) = trimLeftCs l := by
  simp [trimLeftCs, List.dropWhile_cons, h]

/-- Right trim ignores a trailing non-whitespace character. -/
theorem trimRightCs_append_last {l : List Char} {c : Char}
    (h : jsWs c = false) : trimRightCs (l ++ [c]) = l ++ [c] := by
  simp [trimRightCs, List.reverse_append, List.dropWhile_cons, h]

/-- Right trim drops a trailing whitespace character. -/
theorem trimRightCs_append_ws {l : List Char} {c : Char}
    (h : jsWs c = true) : trimRightCs (l ++ [c]) = trimRightCs l := by
  simp [trimRightCs, List.reverse_append, List.dropWhile_cons, h]

/-- Trimming a newline-wrapped text equals trimming the text. -/
theorem trimCs_wrap_nl (j : List Char) :
    trimCs ('\n' :: (j ++ ['\n'])) = trimCs j := by
  unfold trimCs
  rw [trimLeftCs_cons_ws (by decide)]
  simp only [trimLeftCs, List.dropWhile_append]
  split_ifs with he
  · rw [List.isEmpty_iff.mp he]
    rfl
  · exact trimRightCs_append_ws (by decide)

/-- Dropping the last three characters of a list with three appended. -/
theorem dropRightCs_append3 (l : List Char) (a b c : Char) :
    dropRightCs (l ++ [a, b, c]) 3 = l := by
  simp only [dropRightCs, List.length_append, List.length_cons,
    List.length_nil]
  rw [show l.length + (0 + 1 + 1 + 1) - 3 = l.length from by omega]
  exact List.take_left l [a, b, c]

/-- Cleaning a json-tagged fenced text yields the trimmed body. -/
theorem cleanResponse_fenceJson (j : List Char) :
    cleanResponse (fenceJson j) = trimCs j := by
  have hdat : "\n```".data = ['\n', '\x60', '\x60', '\x60'] := rfl
  have htrim : trimCs (fenceJson j) = fenceJson j := by
    have hL : trimLeftCs (fenceJson j) = fenceJson j := rfl
    have hsplit : fenceJson j =
        ("```json\n".data ++ j ++ ['\n', '\x60', '\x60']) ++ ['\x60'] := by
      rw [fenceJson, hdat]
      simp [List.append_assoc]
    have hR : trimRightCs (fenceJson j) = fenceJson j := by
      rw [hsplit]
      exact trimRightCs_append_last (by decide)
    rw [trimCs, hL, hR]
  have hpre : "```json".data.isPrefixOf (fenceJson j) = true := rfl
  have hsuf : "```".data.isSuffixOf (fenceJson j) = true := by
    rw [List.isSuffixOf_iff_suffix]
    refine ⟨"```json\n".data ++ j ++ ['\n'], ?_⟩
    rw [fenceJson, hdat]
    simp [List.append_assoc]
  have hdrop : (fenceJson j).drop 7 = '\n' :: (j ++ "\n```".data) := rfl
  have hsplit2 : '\n' :: (j ++ "\n```".data) =
      ('\n' :: (j ++ ['\n'])) ++ ['\x60', '\x60', '\x60'] := by
    rw [hdat]
    simp [List.append_assoc]
  simp only [cleanResponse, htrim, hpre, hsuf, Bool.and_self, if_true]
  rw [hdrop, hsplit2, dropRightCs_append3]
  exact trimCs_wrap_nl j

/-- Cleaning a bare fenced text yields the trimmed body. -/
theorem cleanResponse_fenceBare (j : List Char) :
    cleanResponse (fenceBare j) = trimCs j := by
  have hdat : "\n```".data = ['\n', '\x60', '\x60', '\x60'] := rfl
  have htrim : trimCs (fenceBare j) = fenceBare j := by
    have hL : trimLeftCs (fenceBare j) = fenceBare j := rfl
    have hsplit : fenceBare j =
        ("```\n".data ++ j ++ ['\n', '\x60', '\x60']) ++ ['\x60'] := by
      rw [fenceBare, hdat]
      simp [List.append_assoc]
    have hR : trimRightCs (fenceBare j) = fenceBare j := by
      rw [hsplit]
      exact trimRightCs_append_last (by decide)
    rw [trimCs, hL, hR]
  have hpre1 : "```json".data.isPrefixOf (fenceBare j) = false := rfl
  have hpre2 : "```".data.isPrefixOf (fenceBare j) = true := rfl
  have hsuf : "```".data.isSuffixOf (fenceBare j) = true := by
    rw [List.isSuffixOf_iff_suffix]
    refine ⟨"```\n".data ++ j ++ ['\n'], ?_⟩
    rw [fenceBare, hdat]
    simp [List.append_assoc]
  have hdrop : (fenceBare j).drop 3 = '\n' :: (j ++ "\n```".data) := rfl
  have hsplit2 : '\n' :: (j ++ "\n```".data) =
      ('\n' :: (j ++ ['\n'])) ++ ['\x60', '\x60', '\x60'] := by
    rw [hdat]
    simp [List.append_assoc]
  simp only [cleanResponse, htrim, hpre1, hpre2, hsuf, Bool.false_and,
    Bool.and_self, if_false, if_true]
  rw [hdrop, hsplit2, dropRightCs_append3]
  exact trimCs_wrap_nl j

/-- Cleaning an unfenced text (one whose trimmed form does not start
with a fence) just trims it. -/
theorem cleanResponse_unfenced (j : List Char)
    (hb : "```".data.isPrefixOf (trimCs j) = false) :
    cleanResponse j = trimCs j := by
  have h1 : "```json".data.isPrefixOf (trimCs j) = false := by
    cases hcase : "```json".data.isPrefixOf (trimCs j) with
    | false => rfl
    | true =>
      exfalso
      have hlong : "```json".data <+: trimCs j :=
        List.isPrefixOf_iff_prefix.mp hcase
      have hshort : "```".data <+: "```json".data := by decide
      have : "```".data <+: trimCs j := hshort.trans hlong
      rw [← List.isPrefixOf_iff_prefix, hb] at this
      exact Bool.false_ne_true this
  simp [cleanResponse, h1, hb]

/-- C6 (confirmed): wrapping a JSON text in a json-tagged or bare
markdown fence leaves the parse result unchanged (for any text whose
trimmed form does not itself start with a fence, which holds for every
JSON text), and a parse failure on the cleaned text propagates as an
error rather than being swallowed. -/
theorem parseClaimC6 {J : Type} (jsonParse : List Char → Option J)
    (j s : List Char)
    (hj : "```".data.isPrefixOf (trimCs j) = false) :
    parseAIResponse jsonParse (fenceJson j) = parseAIResponse jsonParse j
    ∧ parseAIResponse jsonParse (fenceBare j) = parseAIResponse jsonParse j
    ∧ (jsonParse (cleanResponse s) = none →
        parseAIResponse jsonParse s = .error "Failed to parse AI response") := by
  refine ⟨?_, ?_, ?_⟩
  · rw [parseAIResponse, parseAIResponse, cleanResponse_fenceJson j,
      cleanResponse_unfenced j hj]
  · rw [parseAIResponse, parseAIResponse, cleanResponse_fenceBare j,
      cleanResponse_unfenced j hj]
  · intro h
    rw [parseAIResponse, h]

/-- C6 witness: a concrete number literal parses identically with and
without fences, and a failing parse surfaces the error. -/
theorem parseClaimC6_witness :
    "```".data.isPrefixOf (trimCs "42".data) = false
    ∧ parseAIResponse (fun l => if l = "42".data then some 42 else none)
        (fenceJson "42".data) =
      parseAIResponse (fun l => if l = "42".data then some 42 else none)
        "42".data
    ∧ parseAIResponse (fun _ => (none : Option Nat)) "oops".data =
        .error "Failed to parse AI response" :=
  ⟨by decide,
   (parseClaimC6 (fun l => if l = "42".data then some 42 else none)
      "42".data "".data (by decide)).1,
   (parseClaimC6 (fun _ => (none : Option Nat)) "42".data "oops".data
      (by decide)).2.2 rfl⟩

end FinTrack
